import Mathlib

/-!
Verification of the niche-lead-generation pipeline.

This file gives a shallow embedding, in Lean, of the pure computational
content of the repository (scraper.py, email_finder.py, analyzer.py,
lead_generator.py, lead_processor.py) and proves the specified properties
about it.  Network, HTML parsing and LLM calls are modelled by explicit
environment records supplying the parsed responses (or the exception
message) for each external request; everything else is translated
directly from the Python source.
-/

namespace NicheLeads

/-! ## Python string primitives

Models of the Python string operations used by the repository:
`str.strip`, `str.lower`, `str.split()`, the `in` substring test, and the
two regex substitutions of `EnhancedWebsiteScraper.clean_text`.
-/

/-- Character class of the Python regex `\s` (ASCII range) and of the
whitespace set used by `str.strip` / `str.split`. -/
def pySpace (c : Char) : Bool :=
  c = ' ' || c = '\t' || c = '\n' || c = '\r' || c = '\x0b' || c = '\x0c'

/-- Model of Python `str.strip()` on a character list: drop leading and
trailing whitespace. -/
def pyStripList (l : List Char) : List Char :=
  ((l.dropWhile pySpace).reverse.dropWhile pySpace).reverse

/-- Model of Python `str.strip()`. -/
def pyStrip (s : String) : String := String.mk (pyStripList s.data)

/-- Model of Python `str.lower()` (ASCII case folding). -/
def pyLower (s : String) : String := String.mk (s.data.map Char.toLower)

/-- Auxiliary for the substring test: does `pat` occur in the haystack? -/
def strContainsAux (pat : List Char) : List Char → Bool
  | [] => pat.isEmpty
  | c :: rest => pat.isPrefixOf (c :: rest) || strContainsAux pat rest

/-- Model of the Python substring test `pat in hay`. -/
def strContains (hay pat : String) : Bool := strContainsAux pat.data hay.data

/-- Split a character list at every character satisfying `p`
(`acc` holds the current piece, reversed). -/
def splitChars (p : Char → Bool) : List Char → List Char → List (List Char)
  | acc, [] => [acc.reverse]
  | acc, c :: rest =>
    if p c then acc.reverse :: splitChars p [] rest
    else splitChars p (c :: acc) rest

/-- Model of Python `str.split()` (no argument): split on whitespace runs,
discarding empty pieces. -/
def pySplit (s : String) : List String :=
  ((splitChars pySpace [] s.data).map String.mk).filter (fun p => p ≠ "")

/-- Model of Python `str.startswith` (structural, on the character
lists). -/
def strStartsWith (s pre : String) : Bool := pre.data.isPrefixOf s.data

/-- Model of Python `str.replace(pat, rep)` for a non-empty `pat`:
replace every non-overlapping occurrence, scanning left to right. -/
def replaceAllAux (pat rep : List Char) : Nat → List Char → List Char
  | 0, l => l
  | _ + 1, [] => []
  | fuel + 1, c :: rest =>
    if pat.isPrefixOf (c :: rest) && !pat.isEmpty then
      rep ++ replaceAllAux pat rep fuel ((c :: rest).drop pat.length)
    else c :: replaceAllAux pat rep fuel rest

/-- Model of Python `str.replace(pat, rep)`. -/
def pyReplace (s pat rep : String) : String :=
  String.mk (replaceAllAux pat.data rep.data s.data.length s.data)

/-- Model of `re.sub(r'\s+', ' ', text)`: collapse every maximal run of
whitespace characters to a single space.  The flag records whether the
previous character was part of a whitespace run. -/
def collapseAux : Bool → List Char → List Char
  | _, [] => []
  | inSp, c :: rest =>
    if pySpace c then
      if inSp then collapseAux true rest else ' ' :: collapseAux true rest
    else c :: collapseAux false rest

/-- Length of the prefix of a whitespace run up to and including its last
newline, when the run contains one; this is exactly the extent consumed
by the greedy backtracking of `\s*\n`. -/
def lastNewlinePos (run : List Char) : Option Nat :=
  let k := (run.reverse.takeWhile (fun c => c ≠ '\n')).length
  if k = run.length then none else some (run.length - k)

/-- Model of `re.sub(r'\n\s*\n', '\n\n', text)`, fuelled: at each newline,
if the following maximal whitespace run contains another newline, the
match (up to the last newline of the run) is replaced by two newlines and
scanning resumes after it. -/
def subBlankAux : Nat → List Char → List Char
  | 0, l => l
  | _ + 1, [] => []
  | fuel + 1, c :: rest =>
    if c = '\n' then
      match lastNewlinePos (rest.takeWhile pySpace) with
      | some n => '\n' :: '\n' :: subBlankAux fuel (rest.drop n)
      | none => c :: subBlankAux fuel rest
    else c :: subBlankAux fuel rest

/-- Model of `re.sub(r'\n\s*\n', '\n\n', text)`. -/
def subBlank (l : List Char) : List Char := subBlankAux l.length l

/-- Model of `EnhancedWebsiteScraper.clean_text`: collapse whitespace
runs, apply the blank-line rule, then strip. -/
def clean_text (s : String) : String :=
  String.mk (pyStripList (subBlank (collapseAux false s.data)))

/-! ## EmailFinder (email_finder.py)

`extract_emails_from_text` applies four regexes with `re.findall`.  The
character classes below are exactly those of the patterns, and the
matcher implements the leftmost scan with greedy backtracking of the
Python `re` engine, specialised to the shape
`local+ @ domain+ . alpha{2,}` with an optional prefix and an optional or
required closing quote.
-/

/-- The single-quote character. -/
def sqChar : Char := '\''

/-- Character class `[a-zA-Z0-9._%+-]` (local part of the address). -/
def isLocalChar (c : Char) : Bool :=
  c.isAlphanum || c = '.' || c = '_' || c = '%' || c = '+' || c = '-'

/-- Character class `[a-zA-Z0-9.-]` (domain part of the address). -/
def isDomainChar (c : Char) : Bool := c.isAlphanum || c = '.' || c = '-'

/-- Character class `["\']`. -/
def isQuoteChar (c : Char) : Bool := c = '"' || c = sqChar

/-- How the tail of the address pattern ends: nothing after th TLD
(patterns 1 and 2), a required closing quote (pattern 3), or an optional
closing quote (pattern 4). -/
inductive TailMode where
  | bare
  | reqQuote
  | optQuote
deriving DecidableEq

/-- Is the head of the list a quote character? -/
def headIsQuote : List Char → Bool
  | [] => false
  | c :: _ => isQuoteChar c

/-- Backtracking over the split of the maximal domain-character run
`drun`: the regex `[a-zA-Z0-9.-]+\.[a-zA-Z]{2,}` consumes `k` domain
characters, a dot at index `k`, and then the maximal alphabetic run,
trying the largest `k` first.  `rest2` is the text after the run.
Returns the number of characters consumed after the `@`. -/
def domTry (mode : TailMode) (drun rest2 : List Char) : Nat → Option Nat
  | 0 => none
  | k + 1 =>
    match drun.get? (k + 1) with
    | some '.' =>
      let tail := drun.drop (k + 2)
      let alen := (tail.takeWhile Char.isAlpha).length
      if 2 ≤ alen then
        let afterAll := tail.drop alen ++ rest2
        match mode with
        | .bare => some (k + 2 + alen)
        | .reqQuote =>
          if headIsQuote afterAll then some (k + 2 + alen + 1)
          else domTry mode drun rest2 k
        | .optQuote => some (k + 2 + alen + (if headIsQuote afterAll then 1 else 0))
      else domTry mode drun rest2 k
    | _ => domTry mode drun rest2 k

/-- Match `[a-zA-Z0-9._%+-]+@[a-zA-Z0-9.-]+\.[a-zA-Z]{2,}` (with the
given tail mode) at the head of `cs`; on success return the number of
characters consumed. -/
def emailAt (mode : TailMode) (cs : List Char) : Option Nat :=
  let lrun := cs.takeWhile isLocalChar
  if lrun.length = 0 then none
  else
    match cs.drop lrun.length with
    | '@' :: rest =>
      let drun := rest.takeWhile isDomainChar
      let rest2 := rest.drop drun.length
      match domTry mode drun rest2 drun.length with
      | some consumed => some (lrun.length + 1 + consumed)
      | none => none
    | _ => none

/-- The four regex patterns of `EmailFinder.email_patterns`, as the data
needed by the matcher: a literal Python-source prefix, whether an opening
quote is required or optional, and the tail mode. -/
inductive EmailPat where
  | bare
  | mailto
  | dataEmail
  | emailLabel
deriving DecidableEq

/-- Match the given pattern at the head of `cs`, returning the number of
characters consumed by the whole match. -/
def patAt (p : EmailPat) (cs : List Char) : Option Nat :=
  match p with
  | .bare => emailAt .bare cs
  | .mailto =>
    if ("mailto:".data.isPrefixOf cs) then
      (emailAt .bare (cs.drop 7)).map (fun n => 7 + n)
    else none
  | .dataEmail =>
    if ("data-email=".data.isPrefixOf cs) then
      match cs.drop 11 with
      | c :: rest =>
        if isQuoteChar c then (emailAt .reqQuote rest).map (fun n => 12 + n)
        else none
      | [] => none
    else none
  | .emailLabel =>
    if ("email:".data.isPrefixOf cs) then
      match cs.drop 6 with
      | c :: rest =>
        if isQuoteChar c then (emailAt .optQuote rest).map (fun n => 7 + n)
        else (emailAt .optQuote (c :: rest)).map (fun n => 6 + n)
      | [] => none
    else none

/-- Model of `re.findall(pattern, text)`: scan left to right, at each
position try the pattern, on a match record it and resume after it,
otherwise advance one character. -/
def findallAux (p : EmailPat) : Nat → List Char → List String
  | 0, _ => []
  | _ + 1, [] => []
  | fuel + 1, cs@(_ :: rest) =>
    match patAt p cs with
    | some n => String.mk (cs.take n) :: findallAux p fuel (cs.drop n)
    | none => findallAux p fuel rest

/-- Model of `re.findall(pattern, text)` for one of the four patterns. -/
def findall (p : EmailPat) (text : String) : List String :=
  findallAux p text.data.length text.data

/-- Model of the cleanup
`re.sub(r'^mailto:|^email:|^data-email=|["\']', '', match)`: strip the
one leading literal prefix that applies, then delete every quote
character. -/
def cleanMatch (m : String) : String :=
  let afterPre : List Char :=
    if "mailto:".data.isPrefixOf m.data then m.data.drop 7
    else if "email:".data.isPrefixOf m.data then m.data.drop 6
    else if "data-email=".data.isPrefixOf m.data then m.data.drop 11
    else m.data
  String.mk (afterPre.filter (fun c => !isQuoteChar c))

/-- Model of `EmailFinder.extract_emails_from_text`: run the four
patterns, clean each match, and gather the results into a set (modelled
as a duplicate-free list). -/
def extract_emails_from_text (text : String) : List String :=
  (([EmailPat.bare, EmailPat.mailto, EmailPat.dataEmail, EmailPat.emailLabel].map
      (fun p => (findall p text).map cleanMatch)).flatten).dedup

/-- Model of `EmailFinder.generate_potential_emails`. -/
def generate_potential_emails (domain : String) (owner_name : Option String) : List String :=
  let variations := ["info@" ++ domain, "contact@" ++ domain, "hello@" ++ domain,
    "support@" ++ domain, "sales@" ++ domain]
  match owner_name with
  | none => variations
  | some name =>
    if name ≠ "" then
      let name_parts := pySplit (pyLower name)
      if 2 ≤ name_parts.length then
        let first := name_parts.headD ""
        let last := name_parts.getLastD ""
        variations ++ [first ++ "@" ++ domain, last ++ "@" ++ domain,
          first ++ "." ++ last ++ "@" ++ domain,
          String.mk (first.data.take 1) ++ last ++ "@" ++ domain,
          first ++ String.mk (last.data.take 1) ++ "@" ++ domain]
      else variations
    else variations

/-! ## EnhancedWebsiteScraper (scraper.py)

HTML parsing is modelled by presenting a page as the document-order list
of its elements; each element carries the attributes and DOM-derived
data that `process_element` / `get_element_context` read from it
(`element.text`, `element.get('class')`, parent data, the nearest
preceding header).  `find_all(tags)` is the document-order filter by tag
name.
-/

/-- An HTML element, as consumed by the scraper. -/
structure Element where
  tag : String
  classes : List String
  id : String
  text : String
  parentTag : String
  parentClasses : List String
  nearestHeader : Option String
  raw : String
deriving DecidableEq, Repr

/-- The context dictionary built by `get_element_context`. -/
structure Context where
  tag : String
  classes : String
  id : String
  parent_tag : String
  parent_classes : String
  nearest_header : Option String
deriving DecidableEq, Repr

/-- A scored content fragment as produced by `process_element` (the
`type` key is added by `extract_content_with_context`). -/
structure Fragment where
  text : String
  context : Context
  relevance_score : Nat
  html : String
  type : String
deriving DecidableEq, Repr

/-- Configured header tag names. -/
def header_tags : List String := ["h1", "h2", "h3", "h4", "h5", "h6"]

/-- Configured content tag names. -/
def content_tags : List String := ["p", "article", "section", "div"]

/-- Configured relevant secondary-page path fragments. -/
def relevant_paths : List String :=
  ["/about", "/contact", "/team", "/our-story", "/meet-the-team",
   "/about-us", "/contact-us", "/leadership", "/management"]

/-- Configured important class names. -/
def important_classes : List String :=
  ["about", "contact", "team", "bio", "profile", "person",
   "founder", "ceo", "owner", "management", "leadership",
   "company", "mission", "vision", "values", "history"]

/-- The per-section keyword sets of `process_element`
(`relevant_keywords.get(section_type, [])`). -/
def relevant_keywords (section_type : String) : List String :=
  if section_type = "about" then ["about", "history", "story", "mission", "vision", "values"]
  else if section_type = "team" then ["founder", "ceo", "owner", "team", "leadership", "management"]
  else if section_type = "contact" then ["contact", "email", "phone", "address", "reach"]
  else []

/-- Model of `get_element_context`. -/
def get_element_context (e : Element) : Context :=
  { tag := e.tag
    classes := String.intercalate " " e.classes
    id := e.id
    parent_tag := e.parentTag
    parent_classes := String.intercalate " " e.parentClasses
    nearest_header := e.nearestHeader.map pyStrip }

/-- Model of `EnhancedWebsiteScraper.process_element`. -/
def process_element (e : Element) (section_type : String) : Option Fragment :=
  if pyStrip e.text = "" then none
  else
    let text := clean_text e.text
    let context := get_element_context e
    let element_classes := pyLower (String.intercalate " " e.classes)
    let score0 := important_classes.foldl
      (fun acc ic => if strContains element_classes ic then acc + 2 else acc) 0
    let text_lower := pyLower text
    let score := (relevant_keywords section_type).foldl
      (fun acc kw => if strContains text_lower kw then acc + 1 else acc) score0
    if 0 < score then
      some { text := text, context := context, relevance_score := score,
             html := e.raw, type := "" }
    else none

/-- Insert a fragment into a list already sorted by descending score,
after every element with a strictly larger score: this is the stable
descending insertion used to model Python `sorted(..., reverse=True)`. -/
def insertFragDesc (f : Fragment) : List Fragment → List Fragment
  | [] => [f]
  | g :: gs =>
    if f.relevance_score < g.relevance_score then g :: insertFragDesc f gs
    else f :: g :: gs

/-- Model of `sorted(content_elements, key=lambda x: x['relevance_score'],
reverse=True)`: a stable sort, descending by relevance score. -/
def sortFragDesc : List Fragment → List Fragment
  | [] => []
  | f :: fs => insertFragDesc f (sortFragDesc fs)

/-- The unsorted fragment list of `extract_content_with_context`: headers
processed first (tagged `header`), then content tags (tagged `content`),
each in document order. -/
def content_elements_of (elems : List Element) (section_type : String) : List Fragment :=
  ((elems.filter (fun e => header_tags.contains e.tag)).filterMap
      (fun e => (process_element e section_type).map (fun f => { f with type := "header" })))
    ++ ((elems.filter (fun e => content_tags.contains e.tag)).filterMap
      (fun e => (process_element e section_type).map (fun f => { f with type := "content" })))

/-- Model of `EnhancedWebsiteScraper.extract_content_with_context`. -/
def extract_content_with_context (elems : List Element) (section_type : String) : List Fragment :=
  sortFragDesc (content_elements_of elems section_type)

/-- A `<meta>` tag (attributes may be absent). -/
structure MetaTag where
  name : Option String
  property : Option String
  content : Option String
deriving DecidableEq, Repr

/-- The parse of one `application/ld+json` script body: a JSON object
(payload kept opaque), a JSON array of objects, some other JSON value, or
malformed JSON. -/
inductive LdJson where
  | obj (d : String)
  | arr (l : List String)
  | other
  | malformed
deriving DecidableEq, Repr

/-- A parsed HTML page: document-order elements, anchor `href`
attributes, `<meta>` tags, the `<title>` text, and the `ld+json` script
bodies. -/
structure Page where
  elements : List Element
  anchors : List String
  metaTags : List MetaTag
  title : Option String
  ldjson : List LdJson
deriving Repr

/-- An HTTP response: the `response.ok` flag and the parsed body. -/
structure HttpResp where
  ok : Bool
  page : Page
deriving Repr

/-- The network, as seen by the scraper: for each requested URL, either
the response or the message of the raised exception. -/
structure ScrapeEnv where
  http : String → Except String HttpResp

/-- Set a key in a Python dict modelled as an insertion-ordered
association list: overwrite in place or append. -/
def dictSet (d : List (String × String)) (k v : String) : List (String × String) :=
  if d.any (fun kv => kv.1 = k) then d.map (fun kv => if kv.1 = k then (k, v) else kv)
  else d ++ [(k, v)]

/-- Model of `extract_meta_tags`. -/
def extract_meta_tags (soup : Page) : List (String × String) :=
  let md := soup.metaTags.foldl
    (fun acc m =>
      let name := m.name.getD (m.property.getD "")
      let content := m.content.getD ""
      if name ≠ "" ∧ content ≠ "" then dictSet acc name content else acc)
    []
  match soup.title with
  | some t => dictSet md "title" (pyStrip t)
  | none => md

/-- Model of `extract_schema_data`: JSON objects are appended, arrays
extended, anything else (including malformed JSON) skipped. -/
def extract_schema_data (soup : Page) : List String :=
  soup.ldjson.foldl
    (fun acc j =>
      match j with
      | .obj d => acc ++ [d]
      | .arr l => acc ++ l
      | _ => acc)
    []

/-- Model of the JSON rendering of a string (`json.dumps`, escaping not
modelled). -/
def jsonStr (s : String) : String := "\"" ++ s ++ "\""

/-- Model of `json.dumps(context, indent=2)` on the context dict. -/
def ctxJson (c : Context) : String :=
  let base := ["  " ++ jsonStr "tag" ++ ": " ++ jsonStr c.tag,
    "  " ++ jsonStr "classes" ++ ": " ++ jsonStr c.classes,
    "  " ++ jsonStr "id" ++ ": " ++ jsonStr c.id,
    "  " ++ jsonStr "parent_tag" ++ ": " ++ jsonStr c.parent_tag,
    "  " ++ jsonStr "parent_classes" ++ ": " ++ jsonStr c.parent_classes]
  let all := match c.nearest_header with
    | some h => base ++ ["  " ++ jsonStr "nearest_header" ++ ": " ++ jsonStr h]
    | none => base
  "\x7b\n" ++ String.intercalate ",\n" all ++ "\n\x7d"

/-- Model of `json.dumps(schema_data, indent=2)` on the collected schema
objects (payloads opaque). -/
def schemaJson (schema_data : List String) : String :=
  "[\n" ++ String.intercalate ",\n" schema_data ++ "\n]"

/-- The separator line `"-" * 50`. -/
def sepLine : String := String.mk (List.replicate 50 '-')

/-- Model of `format_for_llm`. -/
def format_for_llm (content_elements : List Fragment) (metadata : List (String × String))
    (schema_data : List String) : String :=
  let mdPart : List String :=
    if metadata ≠ [] then
      ["### Page Metadata ###"] ++ metadata.map (fun kv => kv.1 ++ ": " ++ kv.2) ++ ["\n"]
    else []
  let sdPart : List String :=
    if schema_data ≠ [] then ["### Structured Data ###", schemaJson schema_data, "\n"]
    else []
  let mains : List String :=
    ["### Main Content ###"] ++ (content_elements.map (fun e =>
      ["\nElement Type: " ++ e.type, "Context: " ++ ctxJson e.context, "Content:",
       e.text, sepLine])).flatten
  String.intercalate "\n" (mdPart ++ sdPart ++ mains)

/-- Model of `urllib.parse.urlparse`, restricted to what the scraper
reads: the scheme and the network location of an absolute URL (empty
strings when the URL has no `://`). -/
def urlSchemeNetloc (url : String) : String × String :=
  if strContains url "://" then
    let scheme := String.mk (url.data.takeWhile (fun c => c ≠ ':'))
    let after := url.data.drop (scheme.data.length + 3)
    (scheme, String.mk (after.takeWhile (fun c => c ≠ '/' && c ≠ '?' && c ≠ '#')))
  else ("", "")

/-- Model of `urllib.parse.urljoin(base_url, href)` for an absolute base
with empty path, covering absolute, root-relative and bare-relative
hrefs. -/
def urljoinModel (base href : String) : String :=
  if strContains href "://" then href
  else if strStartsWith href "/" then base ++ href
  else base ++ "/" ++ href

/-- State threaded through the secondary-page loop of `scrape_website`:
the URLs fetched so far, the collected fragments, and the accumulated
schema objects. -/
structure SecState where
  scraped : List String
  collected : List Fragment
  schema : List String
deriving Repr

/-- What `scrape_website` has computed just before formatting. -/
structure CoreOut where
  metadata : List (String × String)
  final : SecState
deriving Repr

/-- The body of `scrape_website` up to (but excluding) `format_for_llm`:
URL normalisation, the main-page fetch and extraction, discovery of
relevant same-host internal links, and the capped secondary-page loop
(whose own failures are swallowed per link). -/
def scrape_core (env : ScrapeEnv) (url0 : String) : Except String CoreOut := do
  let url := if strStartsWith url0 "http://" || strStartsWith url0 "https://" then url0
             else "https://" ++ url0
  let base_url := (urlSchemeNetloc url).1 ++ "://" ++ (urlSchemeNetloc url).2
  let resp ← env.http url
  let soup := resp.page
  let metadata := extract_meta_tags soup
  let schema0 := extract_schema_data soup
  let main_content := extract_content_with_context soup.elements "general"
  let internal_links := soup.anchors.filterMap (fun href =>
    if relevant_paths.any (fun p => strContains (pyLower href) p) then
      let full_url := urljoinModel base_url href
      if (urlSchemeNetloc full_url).2 = (urlSchemeNetloc base_url).2 then some full_url
      else none
    else none)
  let final := (internal_links.take 3).foldl
    (fun (st : SecState) link =>
      if st.scraped.contains link then st
      else
        match env.http link with
        | .error _ => st
        | .ok r =>
          if r.ok then
            let section_type :=
              if strContains (pyLower link) "about" then "about"
              else if strContains (pyLower link) "contact" then "contact"
              else "team"
            let page_content := extract_content_with_context r.page.elements section_type
            { scraped := st.scraped ++ [link],
              collected := st.collected ++ page_content,
              schema := st.schema ++ extract_schema_data r.page }
          else st)
    { scraped := [url], collected := main_content, schema := schema0 }
  pure { metadata := metadata, final := final }

/-- The fragment sequence handed to `format_for_llm` by
`scrape_website` (`collected_content` at line 243 of scraper.py). -/
def scrape_collected (env : ScrapeEnv) (url0 : String) : Except String (List Fragment) :=
  (scrape_core env url0).map (fun c => c.final.collected)

/-- The result dictionary of `scrape_website`, with absent keys as
`none`. -/
structure ScrapeResult where
  success : Bool
  content : Option String
  structured_data : Option (List String)
  metadata : Option (List (String × String))
  scraped_urls : Option (List String)
  error : Option String
deriving DecidableEq, Repr

/-- The failure dictionary `{'success': False, 'error': e}`. -/
def scrapeFailure (e : String) : ScrapeResult :=
  { success := false, content := none, structured_data := none,
    metadata := none, scraped_urls := none, error := some e }

/-- Model of `EnhancedWebsiteScraper.scrape_website`: the placeholder
check, the body, and the catch-all exception handler. -/
def scrape_website (env : ScrapeEnv) (url : String) : ScrapeResult :=
  if url = "" ∨ url = "N/A" then scrapeFailure "Invalid URL"
  else
    match scrape_core env url with
    | .ok c =>
      { success := true,
        content := some (format_for_llm c.final.collected c.metadata c.final.schema),
        structured_data := some c.final.schema,
        metadata := some c.metadata,
        scraped_urls := some c.final.scraped,
        error := none }
    | .error e => scrapeFailure e

/-! ## EnhancedContentAnalyzer (analyzer.py)

The LLM call is modelled by an oracle value: either the parsed JSON
object of the model response, or the message of the exception raised by
the call / the JSON parse.
-/

/-- Model of `str(KeyError(k))`: the key, quoted. -/
def pyKeyErrorMsg (k : String) : String :=
  String.mk (sqChar :: k.data ++ [sqChar])

/-- The parsed JSON object returned by the language model (fields that
are absent or `null` are `none`). -/
structure AnalysisJson where
  owner_name : Option String
  owner_title : Option String
  confidence : Option String
  confidence_reasoning : Option String
  key_facts : Option (List String)
  contact_methods : Option (List (String × String))
deriving DecidableEq, Repr

/-- The dictionary returned by `analyze_content`, with absent keys as
`none`.  Note the failure paths populate `reasoning`, not
`confidence_reasoning`. -/
structure AnalysisDict where
  owner_name : Option String
  owner_title : Option String
  confidence : Option String
  confidence_reasoning : Option String
  key_facts : Option (List String)
  reasoning : Option String
  business_identity : Option (List (String × String))
  contact_patterns : Option (List (String × String))
deriving DecidableEq, Repr

/-- An analysis dictionary with every key absent. -/
def emptyAnalysisDict : AnalysisDict :=
  { owner_name := none, owner_title := none, confidence := none,
    confidence_reasoning := none, key_facts := none, reasoning := none,
    business_identity := none, contact_patterns := none }

/-- Model of `EnhancedContentAnalyzer.analyze_content`.  `llm` is the
outcome of the completion call plus JSON parse. -/
def analyze_content (llm : Except String AnalysisJson) (website_data : ScrapeResult) :
    AnalysisDict :=
  if website_data.success = false then
    { emptyAnalysisDict with
      owner_name := none,
      key_facts := some [],
      reasoning := some (website_data.error.getD "Failed to fetch content") }
  else
    match website_data.content with
    | none =>
      { emptyAnalysisDict with
        owner_name := none,
        key_facts := some [],
        reasoning := some ("Error in analysis: " ++ pyKeyErrorMsg "content") }
    | some _ =>
      match llm with
      | .error e =>
        { emptyAnalysisDict with
          owner_name := none,
          key_facts := some [],
          reasoning := some ("Error in analysis: " ++ e) }
      | .ok a =>
        { owner_name := a.owner_name,
          owner_title := a.owner_title,
          confidence := some (a.confidence.getD "low"),
          confidence_reasoning := some (a.confidence_reasoning.getD ""),
          key_facts := some (a.key_facts.getD []),
          reasoning := none,
          business_identity := some [],
          contact_patterns := some (a.contact_methods.getD []) }

/-! ## LeadGenerator (lead_generator.py)

External calls (geocoding, the paginated nearby search, the per-place
details lookup) are modelled by an environment indexed by the request
number.  The body is interpreted into `Except (String × List Lead)` so
that the leads accumulated at the moment an exception is raised remain
observable; the production wrapper discards them.
-/

/-- Geocoding response coordinates. -/
structure GeoLoc where
  lat : Int
  lng : Int
deriving DecidableEq, Repr

/-- One entry of `geocode_data['results']`. -/
structure GeoResult where
  location : GeoLoc
deriving DecidableEq, Repr

/-- A geocoding response. -/
structure GeoResp where
  status : String
  results : List GeoResult
deriving DecidableEq, Repr

/-- One entry of a nearby-search `results` list. -/
structure PlaceEntry where
  place_id : String
deriving DecidableEq, Repr

/-- A nearby-search response page. -/
structure PageResp where
  status : String
  results : List PlaceEntry
  next_page_token : Option String
deriving DecidableEq, Repr

/-- The `result` payload of a details response. -/
structure DetailsResult where
  name : Option String
  formatted_address : Option String
  formatted_phone_number : Option String
  website : Option String
deriving DecidableEq, Repr

/-- A details response (`result` may be absent even when the status is
OK, in which case the subscript raises). -/
structure DetailsResp where
  status : String
  result : Option DetailsResult
deriving DecidableEq, Repr

/-- The external world of `generate_leads`: the geocoding response, the
`n`-th nearby-search response and the `n`-th details response (or the
exception message each call raises). -/
structure GenEnv where
  geocode : Except String GeoResp
  search : Nat → Except String PageResp
  details : Nat → Except String DetailsResp

/-- A lead record as assembled by `generate_leads`. -/
structure GenLead where
  company_name : String
  full_address : String
  Phone : String
  Website : String
deriving DecidableEq, Repr

/-- Build the lead dict from a details `result`. -/
def mkGenLead (r : DetailsResult) : GenLead :=
  { company_name := r.name.getD "",
    full_address := r.formatted_address.getD "",
    Phone := r.formatted_phone_number.getD "N/A",
    Website := r.website.getD "N/A" }

/-- The inner `for place in data['results']` loop: details lookups with
the `total_results >= max_results` break.  Returns the next details
request index and the extended lead list, or the exception together with
the leads collected so far. -/
def processPlaces (env : GenEnv) (maxr : Nat) :
    Nat → List GenLead → List PlaceEntry → Except (String × List GenLead) (Nat × List GenLead)
  | dIdx, leads, [] => .ok (dIdx, leads)
  | dIdx, leads, _ :: rest =>
    if maxr ≤ leads.length then .ok (dIdx, leads)
    else
      match env.details dIdx with
      | .error e => .error (e, leads)
      | .ok dresp =>
        if dresp.status = "OK" then
          match dresp.result with
          | none => .error (pyKeyErrorMsg "result", leads)
          | some r => processPlaces env maxr (dIdx + 1) (leads ++ [mkGenLead r]) rest
        else processPlaces env maxr (dIdx + 1) leads rest

/-- The outer `while total_results < max_results` pagination loop.  The
fuel bounds the number of page requests; exhausting it stands for the
interpreter giving up on a non-terminating run and carries the leads
collected so far. -/
def genLoop (env : GenEnv) (maxr : Nat) :
    Nat → Nat → Nat → List GenLead → Except (String × List GenLead) (List GenLead)
  | 0, _, _, leads => .error ("page fuel exhausted", leads)
  | fuel + 1, sIdx, dIdx, leads =>
    if maxr ≤ leads.length then .ok leads
    else
      match env.search sIdx with
      | .error e => .error (e, leads)
      | .ok page =>
        if page.status ≠ "OK" then .ok leads
        else
          match processPlaces env maxr dIdx leads page.results with
          | .error ep => .error ep
          | .ok (dIdx', leads') =>
            match page.next_page_token with
            | none => .ok leads'
            | some _ => genLoop env maxr fuel (sIdx + 1) dIdx' leads'

/-- The `try` body of `generate_leads`: geocoding (with the non-OK
`ValueError` and the `results[0]` subscript), then the pagination loop.
On an exception the error carries the leads collected so far. -/
def generate_leads_aux (env : GenEnv) (location : String) (maxr fuel : Nat) :
    Except (String × List GenLead) (List GenLead) :=
  match env.geocode with
  | .error e => .error (e, [])
  | .ok g =>
    if g.status ≠ "OK" then .error ("Could not geocode location: " ++ pyStrip location, [])
    else
      match g.results with
      | [] => .error ("list index out of range", [])
      | _ :: _ => genLoop env maxr fuel 0 0 []

/-- Model of `LeadGenerator.generate_leads`: the body under the
catch-all handler, which reports the error and returns the empty list. -/
def generate_leads (env : GenEnv) (location : String) (maxr fuel : Nat) : List GenLead :=
  match generate_leads_aux env location maxr fuel with
  | .ok leads => leads
  | .error _ => []

/-! ## LeadProcessor (lead_processor.py) -/

/-- An input lead row; a `none` field models a missing key or a
NaN/None cell (`pd.isna`). -/
structure LeadIn where
  company_name : Option String
  full_address : Option String
  town : Option String
  Phone : Option String
  Website : Option String
  businessType : Option String
deriving DecidableEq, Repr

/-- An enriched output row of `process_lead`. -/
structure LeadOut where
  company_name : String
  full_address : String
  town : String
  Phone : String
  Website : String
  businessType : String
  processed : Bool
  owner_name : String
  owner_title : String
  confidence : String
  confidence_reasoning : String
  discovered_emails : String
  potential_emails : String
  key_facts : String
  error : String
deriving DecidableEq, Repr

/-- Model of `LeadProcessor._clean_string`. -/
def clean_string : Option String → String
  | none => ""
  | some s => pyStrip s

/-- Model of `LeadProcessor._format_list_to_string`. -/
def format_list_to_string (data : List String) : String :=
  String.intercalate "; " (data.filter (fun item => item ≠ ""))

/-- Model of `LeadProcessor._create_empty_result`. -/
def create_empty_result (lead : LeadIn) (error : String) : LeadOut :=
  { company_name := clean_string lead.company_name,
    full_address := clean_string lead.full_address,
    town := clean_string lead.town,
    Phone := clean_string lead.Phone,
    Website := clean_string lead.Website,
    businessType := clean_string lead.businessType,
    processed := false,
    owner_name := "",
    owner_title := "",
    confidence := "none",
    confidence_reasoning := "",
    discovered_emails := "",
    potential_emails := "",
    key_facts := "",
    error := error }

/-- The external world of `process_lead`: the scraper network and the
analyzer LLM oracle. -/
structure ProcEnv where
  scrape : ScrapeEnv
  llm : Except String AnalysisJson

/-- The `try` body of `process_lead` past the placeholder check: scrape,
extract emails (the `website_data['content']` subscript raises when the
fetch failed), analyze, and assemble the enriched row. -/
def process_lead_body (env : ProcEnv) (lead : LeadIn) (website : String) :
    Except String LeadOut := do
  let website_data := scrape_website env.scrape website
  let content ← match website_data.content with
    | some c => Except.ok c
    | none => Except.error (pyKeyErrorMsg "content")
  let emails := extract_emails_from_text content
  let analysis := analyze_content env.llm website_data
  let domain := pyReplace (urlSchemeNetloc website).2 "www." ""
  let potential_emails := match analysis.owner_name with
    | some n => if n ≠ "" then generate_potential_emails domain (some n) else []
    | none => []
  pure
    { company_name := clean_string lead.company_name,
      full_address := clean_string lead.full_address,
      town := clean_string lead.town,
      Phone := clean_string lead.Phone,
      Website := website,
      businessType := clean_string lead.businessType,
      processed := true,
      owner_name := clean_string analysis.owner_name,
      owner_title := clean_string analysis.owner_title,
      confidence := clean_string (some (analysis.confidence.getD "low")),
      confidence_reasoning := clean_string analysis.confidence_reasoning,
      discovered_emails := format_list_to_string emails,
      potential_emails := format_list_to_string potential_emails,
      key_facts := format_list_to_string (analysis.key_facts.getD []),
      error := "" }

/-- Model of `LeadProcessor.process_lead`: the placeholder short-circuit
and the catch-all handler around the body. -/
def process_lead (env : ProcEnv) (lead : LeadIn) : LeadOut :=
  let website := clean_string lead.Website
  if website = "" ∨ pyLower website = "n/a" then create_empty_result lead ""
  else
    match process_lead_body env lead website with
    | .ok r => r
    | .error e => create_empty_result lead e

/-! ## Concrete inputs used by the claim theorems -/

/-- The closed-form relevance score of `process_element`: 2 per
configured important class occurring as a substring of the element's
lowered space-joined class attribute, plus 1 per section-type keyword
occurring in the lowered cleaned text. -/
def elementScore (e : Element) (section_type : String) : Nat :=
  2 * (important_classes.countP
        (strContains (pyLower (String.intercalate " " e.classes))))
    + (relevant_keywords section_type).countP
        (strContains (pyLower (clean_text e.text)))

/-- A paragraph element with one important class (score 2 under the
`general` section type). -/
def c1MainElem : Element :=
  { tag := "p", classes := ["team"], id := "", text := "hi",
    parentTag := "body", parentClasses := [], nearestHeader := none,
    raw := "<p class=T>hi</p>" }

/-- A paragraph element with two important classes (score 4). -/
def c1AboutElem : Element :=
  { tag := "p", classes := ["about", "team"], id := "", text := "zz",
    parentTag := "body", parentClasses := [], nearestHeader := none,
    raw := "<p class=AT>zz</p>" }

/-- A main page whose only element scores 2, linking to an about page. -/
def c1MainPage : Page :=
  { elements := [c1MainElem], anchors := ["/about"], metaTags := [],
    title := none, ldjson := [] }

/-- An about page whose only element scores 4. -/
def c1AboutPage : Page :=
  { elements := [c1AboutElem], anchors := [], metaTags := [],
    title := none, ldjson := [] }

/-- The network serving the two pages above. -/
def c1Env : ScrapeEnv :=
  ⟨fun u =>
    if u = "https://x.com" then .ok ⟨true, c1MainPage⟩
    else if u = "https://x.com/about" then .ok ⟨true, c1AboutPage⟩
    else .error "no route"⟩

/-- An element with one important class and a team keyword in its text. -/
def c2Elem : Element :=
  { tag := "div", classes := ["bio"], id := "x", text := "our founder",
    parentTag := "body", parentClasses := [], nearestHeader := some "Team",
    raw := "<div class=bio>our founder</div>" }

/-- The text of the spec example. -/
def c4GoodText : String := "Contact: info@Example.com and mailto:sales@example.com"

/-- The spec example followed by one more alphabetic character. -/
def c4BadText : String := "Contact: info@Example.com and mailto:sales@example.comx"

/-- A world where geocoding and the first page succeed, the first
details call yields a lead, and the second details call raises. -/
def c5Env : GenEnv :=
  { geocode := .ok { status := "OK", results := [{ location := ⟨0, 0⟩ }] }
    search := fun n =>
      if n = 0 then
        .ok { status := "OK", results := [⟨"p1"⟩, ⟨"p2"⟩], next_page_token := none }
      else .error "no page"
    details := fun n =>
      if n = 0 then
        .ok { status := "OK",
              result := some { name := some "A", formatted_address := some "addr",
                               formatted_phone_number := none, website := none } }
      else .error "boom" }

/-- The lead collected before the exception in `c5Env`. -/
def c5Lead : GenLead :=
  { company_name := "A", full_address := "addr", Phone := "N/A", Website := "N/A" }

/-- A lead with the `N/A` placeholder website. -/
def c6Lead : LeadIn :=
  { company_name := some "Acme", full_address := some "1 Road", town := none,
    Phone := some "555", Website := some "N/A", businessType := some "shop" }

/-- An environment whose scraper and LLM both fail (never reached). -/
def c6Env : ProcEnv :=
  { scrape := ⟨fun _ => .error "net down"⟩, llm := .error "no llm" }

/-- A network where every request raises. -/
def c7Env : ScrapeEnv := ⟨fun _ => .error "boom"⟩

/-- A failed fetch result carrying an error message. -/
def c8Fetch : ScrapeResult := scrapeFailure "boom"

/-- A failed fetch result with no error message. -/
def c8FetchNoMsg : ScrapeResult :=
  { success := false, content := none, structured_data := none,
    metadata := none, scraped_urls := none, error := none }

/-- An empty page. -/
def c9Page : Page :=
  { elements := [], anchors := [], metaTags := [], title := none, ldjson := [] }

/-- A network returning an empty page for every URL. -/
def c9Env : ScrapeEnv := ⟨fun _ => .ok ⟨true, c9Page⟩⟩

/-- An environment for `process_lead` built over `c9Env`. -/
def c9ProcEnv : ProcEnv := { scrape := c9Env, llm := .error "no llm" }

/-- A lead whose website strips and lowercases to the placeholder. -/
def c9Lead : LeadIn :=
  { company_name := some "Acme", full_address := none, town := none,
    Phone := none, Website := some " n/A ", businessType := none }

/-! ## Properties of the text cleaning -/

/-- Adjacent characters of a list are never both whitespace. -/
def noAdjSpace (l : List Char) : Prop :=
  l.Chain' (fun a b => ¬(pySpace a = true ∧ pySpace b = true))

theorem mem_collapseAux_blank (l : List Char) :
    ∀ (b : Bool) (c : Char), c ∈ collapseAux b l → pySpace c = true → c = ' ' := by
  induction l with
  | nil => intro b c hc _; simp [collapseAux] at hc
  | cons a rest ih =>
    intro b c hc hsp
    by_cases ha : pySpace a = true
    · cases b with
      | true =>
        rw [show collapseAux true (a :: rest) = collapseAux true rest by
          simp [collapseAux, ha]] at hc
        exact ih true c hc hsp
      | false =>
        rw [show collapseAux false (a :: rest) = ' ' :: collapseAux true rest by
          simp [collapseAux, ha]] at hc
        rcases List.mem_cons.mp hc with h | h
        · exact h
        · exact ih true c h hsp
    · rw [show collapseAux b (a :: rest) = a :: collapseAux false rest by
        simp [collapseAux, ha]] at hc
      rcases List.mem_cons.mp hc with h | h
      · subst h; exact absurd hsp ha
      · exact ih false c h hsp

theorem collapseAux_true_head (l : List Char) :
    ∀ c cs, collapseAux true l = c :: cs → pySpace c = false := by
  induction l with
  | nil => intro c cs h; simp [collapseAux] at h
  | cons a rest ih =>
    intro c cs h
    by_cases ha : pySpace a = true
    · rw [show collapseAux true (a :: rest) = collapseAux true rest by
        simp [collapseAux, ha]] at h
      exact ih c cs h
    · rw [show collapseAux true (a :: rest) = a :: collapseAux false rest by
        simp [collapseAux, ha]] at h
      cases h
      simpa using ha

theorem collapseAux_chain (l : List Char) : ∀ b, noAdjSpace (collapseAux b l) := by
  induction l with
  | nil => intro b; simp [collapseAux, noAdjSpace]
  | cons a rest ih =>
    intro b
    by_cases ha : pySpace a = true
    · cases b with
      | true =>
        rw [show collapseAux true (a :: rest) = collapseAux true rest by
          simp [collapseAux, ha]]
        exact ih true
      | false =>
        rw [show collapseAux false (a :: rest) = ' ' :: collapseAux true rest by
          simp [collapseAux, ha]]
        refine List.chain'_cons'.mpr ⟨?_, ih true⟩
        intro y hy
        cases hh : collapseAux true rest with
        | nil => rw [hh] at hy; simp at hy
        | cons z zs =>
          rw [hh] at hy; simp at hy; subst hy
          have := collapseAux_true_head rest z zs hh
          simp [this]
    · rw [show collapseAux b (a :: rest) = a :: collapseAux false rest by
        simp [collapseAux, ha]]
      refine List.chain'_cons'.mpr ⟨?_, ih false⟩
      intro y _
      simp only [not_and]
      intro hsp
      exact absurd hsp ha

theorem collapseAux_flag (l : List Char)
    (h : ∀ c cs, l = c :: cs → pySpace c = false) :
    collapseAux true l = collapseAux false l := by
  cases l with
  | nil => rfl
  | cons a rest =>
    have ha := h a rest rfl
    simp [collapseAux, ha]

theorem collapseAux_id (l : List Char)
    (h1 : ∀ c ∈ l, pySpace c = true → c = ' ') (h2 : noAdjSpace l) :
    collapseAux false l = l := by
  induction l with
  | nil => rfl
  | cons a rest ih =>
    have ih' : collapseAux false rest = rest :=
      ih (fun c hc hsp => h1 c (List.mem_cons_of_mem _ hc) hsp) (List.Chain'.tail h2)
    by_cases ha : pySpace a = true
    · have haeq : a = ' ' := h1 a (List.mem_cons_self _ _) ha
      have hrest : ∀ c cs, rest = c :: cs → pySpace c = false := by
        intro c cs hcs
        subst hcs
        have hrel := (List.chain'_cons.mp h2).1
        by_contra hcon
        exact hrel ⟨ha, by simpa using hcon⟩
      rw [show collapseAux false (a :: rest) = ' ' :: collapseAux true rest by
        simp [collapseAux, ha]]
      rw [collapseAux_flag rest hrest, ih', haeq]
    · rw [show collapseAux false (a :: rest) = a :: collapseAux false rest by
        simp [collapseAux, ha]]
      rw [ih']

theorem subBlankAux_id (fuel : Nat) :
    ∀ l : List Char, (∀ c ∈ l, c ≠ '\n') → subBlankAux fuel l = l := by
  induction fuel with
  | zero => intro l _; rfl
  | succ n ih =>
    intro l h
    cases l with
    | nil => rfl
    | cons a rest =>
      have ha : a ≠ '\n' := h a (List.mem_cons_self _ _)
      rw [show subBlankAux (n + 1) (a :: rest) = a :: subBlankAux n rest by
        simp [subBlankAux, ha]]
      rw [ih rest (fun c hc => h c (List.mem_cons_of_mem _ hc))]

theorem dropWhile_head_not (p : Char → Bool) (l : List Char) :
    ∀ c cs, l.dropWhile p = c :: cs → p c = false := by
  induction l with
  | nil => intro c cs h; simp at h
  | cons a rest ih =>
    intro c cs h
    by_cases ha : p a = true
    · rw [List.dropWhile_cons_of_pos ha] at h
      exact ih c cs h
    · rw [List.dropWhile_cons_of_neg ha] at h
      cases h
      simpa using ha

theorem dropWhile_eq_self_of_head (p : Char → Bool) (l : List Char)
    (h : ∀ c cs, l = c :: cs → p c = false) : l.dropWhile p = l := by
  cases l with
  | nil => rfl
  | cons a rest =>
    have := h a rest rfl
    rw [List.dropWhile_cons_of_neg (by simp [this])]

theorem mem_pyStripList {c : Char} {l : List Char} (h : c ∈ pyStripList l) : c ∈ l := by
  unfold pyStripList at h
  rw [List.mem_reverse] at h
  have h2 := (List.dropWhile_suffix pySpace).subset h
  rw [List.mem_reverse] at h2
  exact (List.dropWhile_suffix pySpace).subset h2

theorem pyStripList_chain {l : List Char} (h : noAdjSpace l) : noAdjSpace (pyStripList l) := by
  have h1 : noAdjSpace (l.dropWhile pySpace) :=
    List.Chain'.suffix h (List.dropWhile_suffix _)
  have h2 : noAdjSpace (l.dropWhile pySpace).reverse := by
    unfold noAdjSpace
    rw [List.chain'_reverse]
    exact h1.imp (fun hab => by simp only [flip]; tauto)
  have h3 : noAdjSpace ((l.dropWhile pySpace).reverse.dropWhile pySpace) :=
    List.Chain'.suffix h2 (List.dropWhile_suffix _)
  unfold noAdjSpace pyStripList
  rw [List.chain'_reverse]
  exact h3.imp (fun hab => by simp only [flip]; tauto)

theorem dropWhile_getLast (p : Char → Bool) (l : List Char)
    (h : l.dropWhile p ≠ []) : (l.dropWhile p).getLast? = l.getLast? := by
  induction l with
  | nil => simp at h
  | cons a rest ih =>
    by_cases ha : p a = true
    · rw [List.dropWhile_cons_of_pos ha] at h ⊢
      have hrest : rest ≠ [] := by
        intro hr
        rw [hr] at h
        simp at h
      rw [ih h]
      cases rest with
      | nil => exact absurd rfl hrest
      | cons b bs => rw [List.getLast?_cons_cons]
    · rw [List.dropWhile_cons_of_neg ha]

theorem pyStripList_head (l : List Char) :
    ∀ c cs, pyStripList l = c :: cs → pySpace c = false := by
  intro c cs h
  unfold pyStripList at h
  have hBne : (l.dropWhile pySpace).reverse.dropWhile pySpace ≠ [] := by
    intro hb
    rw [hb] at h
    simp at h
  have h1 := dropWhile_getLast pySpace (l.dropWhile pySpace).reverse hBne
  have h3 : ((l.dropWhile pySpace).reverse.dropWhile pySpace).reverse.head?
      = ((l.dropWhile pySpace).reverse.dropWhile pySpace).getLast? := List.head?_reverse _
  rw [h] at h3
  rw [h1, List.getLast?_reverse] at h3
  cases hAcase : l.dropWhile pySpace with
  | nil =>
    rw [hAcase] at h3
    simp at h3
  | cons a as =>
    rw [hAcase] at h3
    simp at h3
    rw [h3]
    exact dropWhile_head_not pySpace l a as hAcase

theorem dropWhile_idem (p : Char → Bool) (l : List Char) :
    (l.dropWhile p).dropWhile p = l.dropWhile p :=
  dropWhile_eq_self_of_head p _ (fun c cs h => dropWhile_head_not p l c cs h)

theorem pyStripList_idem (l : List Char) : pyStripList (pyStripList l) = pyStripList l := by
  have hhead : (pyStripList l).dropWhile pySpace = pyStripList l :=
    dropWhile_eq_self_of_head _ _ (fun c cs h => pyStripList_head l c cs h)
  show (((pyStripList l).dropWhile pySpace).reverse.dropWhile pySpace).reverse = pyStripList l
  rw [hhead]
  conv_lhs =>
    rw [show pyStripList l
      = ((l.dropWhile pySpace).reverse.dropWhile pySpace).reverse from rfl]
  rw [List.reverse_reverse, dropWhile_idem]
  rfl

theorem mem_collapseAux_ne_nl (l : List Char) (b : Bool) (c : Char)
    (hc : c ∈ collapseAux b l) : c ≠ '\n' := by
  intro h
  subst h
  have := mem_collapseAux_blank l b '\n' hc (by decide)
  exact absurd this (by decide)

theorem clean_text_eq_strip_collapse (s : String) :
    clean_text s = String.mk (pyStripList (collapseAux false s.data)) := by
  unfold clean_text subBlank
  congr 2
  exact subBlankAux_id _ _ (fun c hc => mem_collapseAux_ne_nl _ false c hc)

/-- C10: `clean_text` is idempotent, and its output never contains a
newline character: the whitespace-collapsing substitution replaces every
whitespace run (line breaks included) by a single space, so the
blank-line rule can never fire. -/
theorem c10_clean_text_idempotent (t : String) :
    clean_text (clean_text t) = clean_text t
    ∧ ∀ c ∈ (clean_text t).data, c ≠ '\n' := by
  have hct := clean_text_eq_strip_collapse t
  set u := pyStripList (collapseAux false t.data) with hu
  have hublank : ∀ c ∈ u, pySpace c = true → c = ' ' :=
    fun c hc => mem_collapseAux_blank _ false c (mem_pyStripList hc)
  have hunl : ∀ c ∈ u, c ≠ '\n' :=
    fun c hc => mem_collapseAux_ne_nl _ false c (mem_pyStripList hc)
  have huadj : noAdjSpace u := pyStripList_chain (collapseAux_chain _ false)
  constructor
  · rw [hct]
    show String.mk (pyStripList (subBlank (collapseAux false u))) = String.mk u
    rw [collapseAux_id u hublank huadj]
    unfold subBlank
    rw [subBlankAux_id _ u hunl, hu, pyStripList_idem]
  · rw [hct]
    exact hunl

/-! ## Properties of the fragment sort -/

theorem mem_insertFragDesc {x f : Fragment} :
    ∀ {l : List Fragment}, x ∈ insertFragDesc f l → x = f ∨ x ∈ l := by
  intro l
  induction l with
  | nil =>
    intro h
    simp [insertFragDesc] at h
    exact Or.inl h
  | cons g gs ih =>
    intro h
    unfold insertFragDesc at h
    by_cases hlt : f.relevance_score < g.relevance_score
    · rw [if_pos hlt] at h
      rcases List.mem_cons.mp h with h | h
      · exact Or.inr (List.mem_cons.mpr (Or.inl h))
      · rcases ih h with h | h
        · exact Or.inl h
        · exact Or.inr (List.mem_cons.mpr (Or.inr h))
    · rw [if_neg hlt] at h
      rcases List.mem_cons.mp h with h | h
      · exact Or.inl h
      · exact Or.inr h

theorem mem_sortFragDesc {x : Fragment} :
    ∀ {l : List Fragment}, x ∈ sortFragDesc l → x ∈ l := by
  intro l
  induction l with
  | nil => intro h; simp [sortFragDesc] at h
  | cons f fs ih =>
    intro h
    rcases mem_insertFragDesc h with h | h
    · exact List.mem_cons.mpr (Or.inl h)
    · exact List.mem_cons.mpr (Or.inr (ih h))

theorem insertFragDesc_pairwise {f : Fragment} {l : List Fragment}
    (h : l.Pairwise (fun a b => b.relevance_score ≤ a.relevance_score)) :
    (insertFragDesc f l).Pairwise (fun a b => b.relevance_score ≤ a.relevance_score) := by
  induction l with
  | nil => simp [insertFragDesc]
  | cons g gs ih =>
    unfold insertFragDesc
    by_cases hlt : f.relevance_score < g.relevance_score
    · rw [if_pos hlt]
      refine List.pairwise_cons.mpr ⟨?_, ih (List.Pairwise.of_cons h)⟩
      intro x hx
      rcases mem_insertFragDesc hx with hx | hx
      · subst hx; omega
      · exact (List.pairwise_cons.mp h).1 x hx
    · rw [if_neg hlt]
      refine List.pairwise_cons.mpr ⟨?_, h⟩
      intro x hx
      rcases List.mem_cons.mp hx with hx | hx
      · subst hx; omega
      · have := (List.pairwise_cons.mp h).1 x hx
        omega

theorem sortFragDesc_pairwise (l : List Fragment) :
    (sortFragDesc l).Pairwise (fun a b => b.relevance_score ≤ a.relevance_score) := by
  induction l with
  | nil => simp [sortFragDesc]
  | cons f fs ih => exact insertFragDesc_pairwise ih

theorem insertFragDesc_filter (f : Fragment) (l : List Fragment) (s : Nat) :
    (insertFragDesc f l).filter (fun g => g.relevance_score == s)
      = if f.relevance_score = s then
          f :: l.filter (fun g => g.relevance_score == s)
        else l.filter (fun g => g.relevance_score == s) := by
  induction l with
  | nil =>
    by_cases hf : f.relevance_score = s <;> simp [insertFragDesc, hf]
  | cons g gs ih =>
    unfold insertFragDesc
    by_cases hlt : f.relevance_score < g.relevance_score
    · rw [if_pos hlt]
      by_cases hf : f.relevance_score = s
      · have hg : ¬ (g.relevance_score = s) := by omega
        simp [List.filter_cons, hf, hg, ih]
      · by_cases hg : g.relevance_score = s <;> simp [List.filter_cons, hf, hg, ih]
    · rw [if_neg hlt]
      by_cases hf : f.relevance_score = s
      · by_cases hg : g.relevance_score = s <;> simp [List.filter_cons, hf, hg]
      · by_cases hg : g.relevance_score = s <;> simp [List.filter_cons, hf, hg]

theorem sortFragDesc_filter (l : List Fragment) (s : Nat) :
    (sortFragDesc l).filter (fun g => g.relevance_score == s)
      = l.filter (fun g => g.relevance_score == s) := by
  induction l with
  | nil => rfl
  | cons f fs ih =>
    show (insertFragDesc f (sortFragDesc fs)).filter (fun g => g.relevance_score == s) = _
    rw [insertFragDesc_filter]
    by_cases hf : f.relevance_score = s
    · simp [List.filter_cons, hf, ih]
    · simp [List.filter_cons, hf, ih]

/-! ## Claim C1 -/

/-- C1 counterexample: on this concrete site the fragment sequence handed
to `format_for_llm` by `scrape_website` has scores `[2, 4]`, which is not
non-increasing — the per-page sorted blocks are concatenated without a
global re-sort. -/
theorem c1_counterexample :
    (scrape_collected c1Env "x.com").map (fun l => l.map Fragment.relevance_score)
      = Except.ok [2, 4]
    ∧ ¬ ([2, 4] : List Nat).Pairwise (fun a b => b ≤ a) := by
  constructor
  · rfl
  · intro h
    have := (List.pairwise_cons.mp h).1 4 (by simp)
    omega

/-- C1 (amended): each single page's fragment list — the root page's and
each secondary page's, i.e. every result of
`extract_content_with_context` — is sorted non-increasing in
`relevanceScore`, and among fragments of equal score the original
discovery order is preserved (the fragments of each score appear exactly
as in the unsorted discovery list); the sequence consumed by formatting
is the concatenation of these per-page sorted blocks, not a globally
sorted list. -/
theorem c1_per_page_sorted (elems : List Element) (section_type : String) :
    (extract_content_with_context elems section_type).Pairwise
      (fun a b => b.relevance_score ≤ a.relevance_score)
    ∧ ∀ s : Nat,
        (extract_content_with_context elems section_type).filter
            (fun g => g.relevance_score == s)
          = (content_elements_of elems section_type).filter
            (fun g => g.relevance_score == s) :=
  ⟨sortFragDesc_pairwise _, fun s => sortFragDesc_filter _ s⟩

/-! ## Claim C2 -/

theorem foldl_if_add {α : Type} (p : α → Bool) (k : Nat) (l : List α) (init : Nat) :
    l.foldl (fun acc x => if p x then acc + k else acc) init = init + k * l.countP p := by
  induction l generalizing init with
  | nil => simp
  | cons a rest ih =>
    by_cases ha : p a = true
    · rw [List.foldl_cons, if_pos ha, ih, List.countP_cons, if_pos ha]
      ring
    · rw [List.foldl_cons, if_neg ha, ih, List.countP_cons, if_neg (by simpa using ha)]
      simp

theorem process_element_char (e : Element) (st : String) (hne : pyStrip e.text ≠ "") :
    ((process_element e st).isSome ↔ 0 < elementScore e st)
    ∧ ∀ f, process_element e st = some f → f.relevance_score = elementScore e st := by
  have hes : elementScore e st
      = 2 * List.countP (strContains (pyLower (" ".intercalate e.classes))) important_classes
        + List.countP (strContains (pyLower (clean_text e.text))) (relevant_keywords st) := rfl
  unfold process_element
  rw [if_neg hne]
  simp only [foldl_if_add, Nat.zero_add, Nat.one_mul]
  constructor
  · rw [hes]
    constructor
    · intro h
      by_contra hz
      rw [if_neg hz] at h
      simp at h
    · intro h
      rw [if_pos h]
      rfl
  · intro f h
    split at h
    · cases h
      simp only [hes]
    · cases h

theorem process_element_pos {e : Element} {st : String} {f : Fragment}
    (h : process_element e st = some f) : 0 < f.relevance_score := by
  have hne : pyStrip e.text ≠ "" := by
    intro hne
    unfold process_element at h
    rw [if_pos hne] at h
    cases h
  have hc := process_element_char e st hne
  rw [hc.2 f h]
  exact hc.1.mp (by rw [h]; rfl)

theorem mem_extract_pos {elems : List Element} {st : String} {f : Fragment}
    (h : f ∈ extract_content_with_context elems st) : 0 < f.relevance_score := by
  have h1 : f ∈ content_elements_of elems st := mem_sortFragDesc h
  unfold content_elements_of at h1
  rcases List.mem_append.mp h1 with h2 | h2 <;>
  · obtain ⟨e, _, hpe⟩ := List.mem_filterMap.mp h2
    obtain ⟨g, hg, hgf⟩ := Option.map_eq_some'.mp hpe
    have := process_element_pos hg
    rw [← hgf]
    simpa using this

/-- C2: for an element with non-empty trimmed text, `process_element`
keeps it exactly when `elementScore` — 2 × (configured important class
names occurring as substrings of the lowered space-joined class
attribute) + 1 × (section-type keywords occurring in the lowered cleaned
text) — is positive, the kept fragment carries that score, the `general`
section type has no keywords, and fragments of score 0 never appear in
any extracted fragment list. -/
theorem c2_relevance_scoring (e : Element) (section_type : String)
    (hne : pyStrip e.text ≠ "") :
    ((process_element e section_type).isSome ↔ 0 < elementScore e section_type)
    ∧ (∀ f, process_element e section_type = some f →
        f.relevance_score = elementScore e section_type)
    ∧ relevant_keywords "general" = []
    ∧ ∀ (elems : List Element) (st : String) (f : Fragment),
        f ∈ extract_content_with_context elems st → 0 < f.relevance_score :=
  ⟨(process_element_char e section_type hne).1,
   (process_element_char e section_type hne).2,
   rfl,
   fun _ _ _ h => mem_extract_pos h⟩

/-- Witness for C2 at a concrete element: the hypothesis holds and the
element (class score 2, keyword score 1 under `team`) is kept. -/
theorem c2_witness :
    pyStrip c2Elem.text ≠ "" ∧ (process_element c2Elem "team").isSome := by
  have h : pyStrip c2Elem.text ≠ "" := by decide
  exact ⟨h, (c2_relevance_scoring c2Elem "team" h).1.mpr (by decide)⟩

/-! ## Claim C3 -/

/-- C3: without an owner name exactly the five role addresses are
generated; with owner name `Jane Doe` exactly those five plus the five
name-based addresses, in order; and for any domain, an owner name whose
lowercased whitespace split has fewer than two parts produces only the
five role addresses. -/
theorem c3_generate_candidates (domain name : String)
    (h : (pySplit (pyLower name)).length < 2) :
    generate_potential_emails "example.com" none =
      ["info@example.com", "contact@example.com", "hello@example.com",
       "support@example.com", "sales@example.com"]
    ∧ generate_potential_emails "example.com" (some "Jane Doe") =
      ["info@example.com", "contact@example.com", "hello@example.com",
       "support@example.com", "sales@example.com",
       "jane@example.com", "doe@example.com", "jane.doe@example.com",
       "jdoe@example.com", "janed@example.com"]
    ∧ generate_potential_emails domain (some name) =
      ["info@" ++ domain, "contact@" ++ domain, "hello@" ++ domain,
       "support@" ++ domain, "sales@" ++ domain] := by
  refine ⟨rfl, rfl, ?_⟩
  have h2 : ¬ (2 ≤ (pySplit (pyLower name)).length) := by omega
  by_cases hn : name = ""
  · simp [generate_potential_emails, hn]
  · simp [generate_potential_emails, hn, h2]

/-- Witness for C3: a single-part owner name. -/
theorem c3_witness :
    (pySplit (pyLower "Jane")).length < 2
    ∧ generate_potential_emails "x.com" (some "Jane") =
      ["info@x.com", "contact@x.com", "hello@x.com", "support@x.com", "sales@x.com"] :=
  ⟨by decide, (c3_generate_candidates "x.com" "Jane" (by decide)).2.2⟩

/-! ## Claim C4 -/

/-- C4 counterexample: `c4BadText` contains the spec's example substring,
yet `extract_emails_from_text` does not return `sales@example.com` for it
— the trailing character extends the greedy regex match to
`sales@example.comx`. -/
theorem c4_counterexample :
    strContains c4BadText c4GoodText = true
    ∧ "sales@example.com" ∉ extract_emails_from_text c4BadText
    ∧ "sales@example.comx" ∈ extract_emails_from_text c4BadText := by
  refine ⟨by decide, by decide, by decide⟩

/-- C4 (amended): on the example text itself both addresses are
returned, `info@Example.com` with its case preserved and
`sales@example.com` with the `mailto:` prefix stripped; and for every
input text the returned collection is duplicate-free (set semantics).
The containment holds for the exact example text (more generally,
whenever the occurrence is not adjacent to further address characters),
not for every text containing it as a substring. -/
theorem c4_extract_emails :
    "info@Example.com" ∈ extract_emails_from_text c4GoodText
    ∧ "sales@example.com" ∈ extract_emails_from_text c4GoodText
    ∧ ∀ text : String, (extract_emails_from_text text).Nodup :=
  ⟨by decide, by decide, fun _ => List.nodup_dedup _⟩

/-! ## Claim C5 -/

/-- C5 counterexample: in `c5Env` the body raises after one lead was
collected, but `generate_leads` returns the empty list, not the lead
collected so far. -/
theorem c5_counterexample :
    generate_leads_aux c5Env "Town" 25 5 = .error ("boom", [c5Lead])
    ∧ generate_leads c5Env "Town" 25 5 = []
    ∧ [c5Lead] ≠ ([] : List GenLead) :=
  ⟨rfl, rfl, by decide⟩

/-- C5 (amended): on any uncaught exception — whatever leads were
already collected — `generate_leads` returns the empty list and never
raises. -/
theorem c5_exception_returns_empty (env : GenEnv) (location : String)
    (maxr fuel : Nat) (e : String) (collected : List GenLead)
    (h : generate_leads_aux env location maxr fuel = .error (e, collected)) :
    generate_leads env location maxr fuel = [] := by
  unfold generate_leads
  rw [h]

/-- Witness for C5 at the concrete world `c5Env`. -/
theorem c5_witness :
    generate_leads_aux c5Env "Town" 25 5 = .error ("boom", [c5Lead])
    ∧ generate_leads c5Env "Town" 25 5 = [] :=
  ⟨rfl, c5_exception_returns_empty c5Env "Town" 25 5 "boom" [c5Lead] rfl⟩

/-! ## Claim C6 -/

/-- C6: a lead whose website field is missing, empty, or the literal
`N/A` short-circuits to the unprocessed record — `processed = false`,
every enrichment string field empty (with the `confidence` enum at its
blank value `none`), and `error = ""` — for every environment and
regardless of the other field contents. -/
theorem c6_placeholder_short_circuit (env : ProcEnv) (lead : LeadIn)
    (h : lead.Website = none ∨ lead.Website = some "" ∨ lead.Website = some "N/A") :
    process_lead env lead = create_empty_result lead ""
    ∧ (process_lead env lead).processed = false
    ∧ (process_lead env lead).owner_name = ""
    ∧ (process_lead env lead).owner_title = ""
    ∧ (process_lead env lead).confidence = "none"
    ∧ (process_lead env lead).confidence_reasoning = ""
    ∧ (process_lead env lead).discovered_emails = ""
    ∧ (process_lead env lead).potential_emails = ""
    ∧ (process_lead env lead).key_facts = ""
    ∧ (process_lead env lead).error = "" := by
  have hmain : process_lead env lead = create_empty_result lead "" := by
    unfold process_lead
    rcases h with h | h | h <;> rw [h] <;> rfl
  rw [hmain]
  exact ⟨rfl, rfl, rfl, rfl, rfl, rfl, rfl, rfl, rfl, rfl⟩

/-- Witness for C6 at the concrete lead `c6Lead`. -/
theorem c6_witness :
    (c6Lead.Website = none ∨ c6Lead.Website = some "" ∨ c6Lead.Website = some "N/A")
    ∧ process_lead c6Env c6Lead = create_empty_result c6Lead "" := by
  have h : c6Lead.Website = none ∨ c6Lead.Website = some "" ∨ c6Lead.Website = some "N/A" :=
    Or.inr (Or.inr rfl)
  exact ⟨h, (c6_placeholder_short_circuit c6Env c6Lead h).1⟩

/-! ## Claim C7 -/

/-- C7: `scrape_website` returns a result dictionary for every URL and
environment (it is a total function of the modelled world): the empty
and `N/A` URLs yield `{success: false, error: "Invalid URL"}` without
consulting the network (the result is the same in every environment),
and whenever the body raises the result is `{success: false, error:
message}`. -/
theorem c7_scrape_error_handling (env env2 : ScrapeEnv) (url msg : String)
    (hbody : scrape_core env url = .error msg) :
    scrape_website env "" = scrapeFailure "Invalid URL"
    ∧ scrape_website env "N/A" = scrapeFailure "Invalid URL"
    ∧ scrape_website env "" = scrape_website env2 ""
    ∧ scrape_website env "N/A" = scrape_website env2 "N/A"
    ∧ (url ≠ "" → url ≠ "N/A" → scrape_website env url = scrapeFailure msg) := by
  refine ⟨rfl, rfl, rfl, rfl, fun h1 h2 => ?_⟩
  unfold scrape_website
  rw [if_neg (by tauto), hbody]

/-- Witness for C7: a concrete URL whose fetch raises. -/
theorem c7_witness :
    scrape_core c7Env "x.com" = .error "boom"
    ∧ scrape_website c7Env "x.com" = scrapeFailure "boom" := by
  have h : scrape_core c7Env "x.com" = .error "boom" := rfl
  exact ⟨h, (c7_scrape_error_handling c7Env c7Env "x.com" "boom" h).2.2.2.2
    (by decide) (by decide)⟩

/-! ## Claim C8 -/

/-- C8: on a failed fetch `analyze_content` returns, without consulting
the language model (the result is identical in every environment), a
dictionary whose identity fields are null and whose key-facts list is
empty — but the fetch error message (or the generic
`Failed to fetch content`) is stored under the `reasoning` key, while
the `confidence_reasoning` field that the spec names (and that the
success path and the downstream consumer use) is left absent. -/
theorem c8_failed_fetch_analysis (llm llm2 : Except String AnalysisJson) :
    (analyze_content llm c8Fetch).owner_name = none
    ∧ (analyze_content llm c8Fetch).owner_title = none
    ∧ (analyze_content llm c8Fetch).key_facts = some []
    ∧ (analyze_content llm c8Fetch).reasoning = some "boom"
    ∧ (analyze_content llm c8Fetch).confidence_reasoning = none
    ∧ (analyze_content llm c8FetchNoMsg).reasoning = some "Failed to fetch content"
    ∧ (analyze_content llm c8FetchNoMsg).confidence_reasoning = none
    ∧ analyze_content llm c8Fetch = analyze_content llm2 c8Fetch :=
  ⟨rfl, rfl, rfl, rfl, rfl, rfl, rfl, rfl⟩

/-! ## Claim C9 -/

/-- C9 (implicit): the placeholder check of `process_lead` strips and
lowercases — any website whose stripped value lowercases to `n/a` (or is
empty) short-circuits to the unprocessed empty result in every
environment, hence without invoking the scraper; yet `scrape_website`
itself only special-cases the exact string `N/A`, so the lowercase
`n/a`, fetched directly, is treated as a normal URL (here it succeeds). -/
theorem c9_case_insensitive_check (env env2 : ProcEnv) (lead : LeadIn) (w : String)
    (hw : lead.Website = some w)
    (h : pyLower (pyStrip w) = "n/a" ∨ pyStrip w = "") :
    process_lead env lead = create_empty_result lead ""
    ∧ process_lead env lead = process_lead env2 lead
    ∧ (scrape_website c9Env "n/a").success = true := by
  have hmain : ∀ env3 : ProcEnv, process_lead env3 lead = create_empty_result lead "" := by
    intro env3
    unfold process_lead
    rw [hw]
    show (if pyStrip w = "" ∨ pyLower (pyStrip w) = "n/a" then _ else _) = _
    rw [if_pos (by tauto)]
  exact ⟨hmain env, by rw [hmain env, hmain env2], rfl⟩

/-- Witness for C9 at the concrete lead `c9Lead`. -/
theorem c9_witness :
    (pyLower (pyStrip " n/A ") = "n/a" ∨ pyStrip " n/A " = "")
    ∧ process_lead c9ProcEnv c9Lead = create_empty_result c9Lead "" := by
  have h : pyLower (pyStrip " n/A ") = "n/a" ∨ pyStrip " n/A " = "" := Or.inl (by decide)
  exact ⟨h, (c9_case_insensitive_check c9ProcEnv c9ProcEnv c9Lead " n/A " rfl h).1⟩

end NicheLeads
